import Mathlib

/-!
Verification of the contrastive training-pair construction implemented in
`src/create_training_samples/create_topic_vector_training_samples.py`
(function `create_training_pairs`).

The Python function receives the positive topic's sample list, a dict mapping
topic id to sample list, the positive topic id and a requested number of
samples.  Python dicts iterate in insertion order, so the pool is embedded as
an association list `List (Nat × List String)`.  The call to
`random.sample(all_pairs, num_samples)` is embedded by passing the positions
the random generator draws as an explicit argument `choice`; the predicate
`ValidSampleChoice` records the contract `random.sample` guarantees for those
positions (distinct, in range, exactly `num_samples` of them, listed in the
order drawn).
-/

namespace TrainingPairs

/-- Error kinds raised by `create_training_pairs` (both are `ValueError`s in
the source; they are distinguished here by the condition that triggers them:
`emptyPositive` is the "No positive samples found" error and `noNegatives` is
the "No non-empty negative sample lists found" error). -/
inductive PairError where
  | emptyPositive
  | noNegatives
deriving DecidableEq, Repr

/-- The list comprehension at the top of `create_training_pairs`:
`[negs for tid, negs in all_samples.items() if tid != tid_positive and negs]`
(a Python list is truthy exactly when it is non-empty). -/
def negativeListsOf (all_samples : List (Nat × List String)) (tid_positive : Nat) :
    List (List String) :=
  (all_samples.filter (fun p => p.1 != tid_positive && !p.2.isEmpty)).map Prod.snd

/-- `max(len(neg_list) for neg_list in negative_lists)`.  The source only
evaluates this once `negative_lists` is known to be non-empty, so folding from
0 agrees with Python `max` (lengths are non-negative). -/
def maxNegLen (negative_lists : List (List String)) : Nat :=
  negative_lists.foldl (fun m nl => max m nl.length) 0

/-- The double loop building `interleaved_negatives`:
`for i in range(max_len): for neg_list in negative_lists:
  if i < len(neg_list): interleaved_negatives.append(neg_list[i])`. -/
def interleaveNegatives (negative_lists : List (List String)) : List String :=
  (List.range (maxNegLen negative_lists)).foldl
    (fun acc i =>
      negative_lists.foldl
        (fun acc2 nl => if h : i < nl.length then acc2 ++ [nl[i]] else acc2)
        acc)
    []

/-- The double loop building `all_pairs`:
`for pos_sample in positive_samples: for neg_sample in interleaved_negatives:
  all_pairs.append((pos_sample, neg_sample))`. -/
def allPairsOf (positive_samples : List String) (interleaved_negatives : List String) :
    List (String × String) :=
  positive_samples.foldl
    (fun acc pos =>
      interleaved_negatives.foldl (fun acc2 neg => acc2 ++ [(pos, neg)]) acc)
    []

/-- `random.sample(all_pairs, num_samples)` returns the elements of
`all_pairs` found at the positions the random generator draws, in the order
drawn.  The drawn positions are the explicit argument `choice`. -/
def randomSample (l : List (String × String)) (choice : List Nat) : List (String × String) :=
  choice.filterMap (fun i => l[i]?)

/-- Contract of the positions drawn by `random.sample` on a population of size
`n` with requested size `k`: exactly `k` distinct in-range positions. -/
def ValidSampleChoice (choice : List Nat) (k : Nat) (n : Nat) : Prop :=
  choice.Nodup ∧ choice.length = k ∧ ∀ i ∈ choice, i < n

/-- The candidate enumeration of `create_training_pairs`: the cross product of
the positive sequence with the interleaved negative sequence, in
(positive-sequence order, then interleaved-negative order). -/
def candidatePairs (positive_samples : List String)
    (all_samples : List (Nat × List String)) (tid_positive : Nat) :
    List (String × String) :=
  allPairsOf positive_samples (interleaveNegatives (negativeListsOf all_samples tid_positive))

/-- `create_training_pairs`, in state-passing form: the result is returned
together with the final values of the two caller-owned inputs.  The body never
rebinds or mutates either of them, which this translation makes explicit.
`num_samples` is a Python int and may be negative. -/
def createTrainingPairsFull (positive_samples : List String)
    (all_samples : List (Nat × List String)) (tid_positive : Nat)
    (num_samples : Int) (choice : List Nat) :
    Except PairError (List (String × String)) × (List String × List (Nat × List String)) :=
  let negative_lists := negativeListsOf all_samples tid_positive
  if positive_samples.isEmpty then
    (Except.error PairError.emptyPositive, (positive_samples, all_samples))
  else if negative_lists.isEmpty then
    (Except.error PairError.noNegatives, (positive_samples, all_samples))
  else if num_samples < 0 then
    (Except.ok [], (positive_samples, all_samples))
  else
    let interleaved_negatives := interleaveNegatives negative_lists
    let all_pairs := allPairsOf positive_samples interleaved_negatives
    let total_possible_pairs := all_pairs.length
    if num_samples ≤ (total_possible_pairs : Int) then
      (Except.ok (randomSample all_pairs choice), (positive_samples, all_samples))
    else
      (Except.ok all_pairs, (positive_samples, all_samples))

/-- The value `create_training_pairs` returns (first component of the
state-passing form). -/
def createTrainingPairs (positive_samples : List String)
    (all_samples : List (Nat × List String)) (tid_positive : Nat)
    (num_samples : Int) (choice : List Nat) :
    Except PairError (List (String × String)) :=
  (createTrainingPairsFull positive_samples all_samples tid_positive num_samples choice).1

/-- Round-robin interleaving as the spec words it: for round index
i = 0, 1, 2, ..., visit each contributing sequence in pool iteration order and
append its element at index i when it exists (rounds beyond the longest
sequence contribute nothing, so stopping at the maximal length is exhaustive). -/
def roundRobinSpec (negative_lists : List (List String)) : List String :=
  (List.range (maxNegLen negative_lists)).flatMap
    (fun i => negative_lists.filterMap (fun nl => nl[i]?))

instance {ε α : Type} [DecidableEq ε] [DecidableEq α] : DecidableEq (Except ε α) := fun x y =>
  match x, y with
  | Except.ok a, Except.ok b =>
      if h : a = b then isTrue (h ▸ rfl) else isFalse (fun hc => h (Except.ok.inj hc))
  | Except.ok _, Except.error _ => isFalse (fun hc => Except.noConfusion hc)
  | Except.error _, Except.ok _ => isFalse (fun hc => Except.noConfusion hc)
  | Except.error e, Except.error f =>
      if h : e = f then isTrue (h ▸ rfl) else isFalse (fun hc => h (Except.error.inj hc))

/-! ### Helper lemmas -/

lemma foldl_append_eq {α β : Type} (f : β → List α) :
    ∀ (xs : List β) (acc : List α),
      xs.foldl (fun a x => a ++ f x) acc = acc ++ xs.flatMap f := by
  intro xs
  induction xs with
  | nil => intro acc; simp
  | cons x xs ih =>
    intro acc
    simp only [List.foldl_cons, List.flatMap_cons, ih, List.append_assoc]

lemma innerFold_eq (i : Nat) (ls : List (List String)) :
    ∀ (acc : List String),
      ls.foldl (fun acc2 nl => if h : i < nl.length then acc2 ++ [nl[i]] else acc2) acc
        = acc ++ ls.filterMap (fun nl => nl[i]?) := by
  induction ls with
  | nil => intro acc; simp
  | cons nl ls ih =>
    intro acc
    simp only [List.foldl_cons, List.filterMap_cons]
    by_cases h : i < nl.length
    · rw [dif_pos h, ih, List.getElem?_eq_getElem h]
      simp [List.append_assoc]
    · rw [dif_neg h, ih, List.getElem?_eq_none (Nat.le_of_not_lt h)]

lemma interleaveNegatives_eq_roundRobin (ls : List (List String)) :
    interleaveNegatives ls = roundRobinSpec ls := by
  unfold interleaveNegatives roundRobinSpec
  have hfun : (fun (acc : List String) (i : Nat) =>
      ls.foldl (fun acc2 nl => if h : i < nl.length then acc2 ++ [nl[i]] else acc2) acc)
      = fun acc i => acc ++ ls.filterMap (fun nl => nl[i]?) := by
    funext acc i
    exact innerFold_eq i ls acc
  rw [hfun, foldl_append_eq (fun i => ls.filterMap (fun nl => nl[i]?))]
  simp

lemma allPairsOf_eq (ps qs : List String) :
    allPairsOf ps qs = ps.flatMap (fun p => qs.map (fun q => (p, q))) := by
  unfold allPairsOf
  have hinner : ∀ (p : String) (acc : List (String × String)),
      qs.foldl (fun acc2 q => acc2 ++ [(p, q)]) acc = acc ++ qs.map (fun q => (p, q)) := by
    intro p acc
    have hsingle : ∀ rs : List String,
        rs.flatMap (fun q => [(p, q)]) = rs.map (fun q => (p, q)) := by
      intro rs
      induction rs with
      | nil => rfl
      | cons r rs ihr => simp [ihr]
    rw [foldl_append_eq (fun q => [(p, q)]) qs acc, hsingle]
  have hfun : (fun (acc : List (String × String)) (p : String) =>
      qs.foldl (fun acc2 q => acc2 ++ [(p, q)]) acc)
      = fun acc p => acc ++ qs.map (fun q => (p, q)) := by
    funext acc p
    exact hinner p acc
  rw [hfun, foldl_append_eq (fun p => qs.map (fun q => (p, q)))]
  simp

lemma filterMap_getElem?_range {α : Type} (l : List α) :
    (List.range l.length).filterMap (fun i => l[i]?) = l := by
  induction l with
  | nil => simp
  | cons a l ih =>
    rw [List.length_cons, List.range_succ_eq_map, List.filterMap_cons]
    simp only [List.getElem?_cons_zero]
    rw [List.filterMap_map]
    have hcomp : ((fun i => (a :: l)[i]?) ∘ Nat.succ) = fun i => l[i]? := by
      funext i
      simp
    rw [hcomp, ih]

lemma forall₂_filterMap_getElem {α : Type} (l : List α) :
    ∀ (c : List Nat), (∀ i ∈ c, i < l.length) →
      List.Forall₂ (fun i q => l[i]? = some q) c (c.filterMap (fun i => l[i]?)) := by
  intro c
  induction c with
  | nil =>
    intro _
    exact List.Forall₂.nil
  | cons i c ih =>
    intro h
    have hi : i < l.length := h i (List.mem_cons_self i c)
    rw [List.filterMap_cons, List.getElem?_eq_getElem hi]
    exact List.Forall₂.cons (List.getElem?_eq_getElem hi)
      (ih fun j hj => h j (List.mem_cons_of_mem _ hj))

lemma randomSample_length (l : List (String × String)) (c : List Nat)
    (h : ∀ i ∈ c, i < l.length) : (randomSample l c).length = c.length :=
  (forall₂_filterMap_getElem l c h).length_eq.symm

lemma randomSample_perm (l : List (String × String)) (c : List Nat)
    (hnd : c.Nodup) (hlen : c.length = l.length) (hmem : ∀ i ∈ c, i < l.length) :
    (randomSample l c).Perm l := by
  have hsub : c ⊆ List.range l.length := fun i hi => List.mem_range.mpr (hmem i hi)
  have hperm : c.Perm (List.range l.length) :=
    (hnd.subperm hsub).perm_of_length_le (by simp [hlen])
  have hfm := hperm.filterMap (fun i => l[i]?)
  rw [filterMap_getElem?_range] at hfm
  exact hfm

lemma mem_randomSample (l : List (String × String)) (c : List Nat)
    (x : String × String) (hx : x ∈ randomSample l c) : x ∈ l := by
  unfold randomSample at hx
  rcases List.mem_filterMap.mp hx with ⟨i, _, hi⟩
  exact List.getElem?_mem hi

/-! ### Branch lemmas for `create_training_pairs` -/

lemma createTrainingPairs_emptyPositive (a : List (Nat × List String)) (t : Nat)
    (n : Int) (c : List Nat) :
    createTrainingPairs [] a t n c = Except.error PairError.emptyPositive := by
  rfl

lemma createTrainingPairs_noNegatives (p : List String) (a : List (Nat × List String))
    (t : Nat) (n : Int) (c : List Nat) (hp : p ≠ []) (hn : negativeListsOf a t = []) :
    createTrainingPairs p a t n c = Except.error PairError.noNegatives := by
  unfold createTrainingPairs createTrainingPairsFull
  rw [if_neg (by simp [List.isEmpty_iff, hp]), if_pos (by simp [List.isEmpty_iff, hn])]

lemma createTrainingPairs_negCount (p : List String) (a : List (Nat × List String))
    (t : Nat) (n : Int) (c : List Nat) (hp : p ≠ []) (hn : negativeListsOf a t ≠ [])
    (hneg : n < 0) :
    createTrainingPairs p a t n c = Except.ok [] := by
  unfold createTrainingPairs createTrainingPairsFull
  rw [if_neg (by simp [List.isEmpty_iff, hp]), if_neg (by simp [List.isEmpty_iff, hn]),
    if_pos hneg]

lemma createTrainingPairs_main (p : List String) (a : List (Nat × List String))
    (t : Nat) (n : Int) (c : List Nat) (hp : p ≠ []) (hn : negativeListsOf a t ≠ [])
    (hnneg : ¬ n < 0) :
    createTrainingPairs p a t n c =
      if n ≤ ((candidatePairs p a t).length : Int)
      then Except.ok (randomSample (candidatePairs p a t) c)
      else Except.ok (candidatePairs p a t) := by
  unfold createTrainingPairs createTrainingPairsFull
  rw [if_neg (by simp [List.isEmpty_iff, hp]), if_neg (by simp [List.isEmpty_iff, hn]),
    if_neg hnneg]
  by_cases h : n ≤ ((candidatePairs p a t).length : Int)
  · rw [if_pos h, if_pos]
    · rfl
    · exact h
  · rw [if_neg h, if_neg]
    · rfl
    · exact h

lemma mem_candidatePairs (p : List String) (a : List (Nat × List String)) (t : Nat)
    (pr : String × String) (h : pr ∈ candidatePairs p a t) :
    pr.1 ∈ p ∧ ∃ tid negs, (tid, negs) ∈ a ∧ tid ≠ t ∧ pr.2 ∈ negs := by
  unfold candidatePairs at h
  rw [allPairsOf_eq] at h
  rcases List.mem_flatMap.mp h with ⟨pos, hpos, hmap⟩
  rcases List.mem_map.mp hmap with ⟨q, hq, hpr⟩
  subst hpr
  refine ⟨hpos, ?_⟩
  rw [interleaveNegatives_eq_roundRobin] at hq
  unfold roundRobinSpec at hq
  rcases List.mem_flatMap.mp hq with ⟨i, _, hfm⟩
  rcases List.mem_filterMap.mp hfm with ⟨nl, hnl, hget⟩
  have hqnl : q ∈ nl := List.getElem?_mem hget
  unfold negativeListsOf at hnl
  rcases List.mem_map.mp hnl with ⟨pair, hpairmem, hsnd⟩
  rcases List.mem_filter.mp hpairmem with ⟨hmem_a, hcond⟩
  have htid : pair.1 ≠ t := by
    simp only [Bool.and_eq_true, bne_iff_ne] at hcond
    exact hcond.1
  exact ⟨pair.1, pair.2, by simpa using hmem_a, htid, by rw [hsnd]; exact hqnl⟩

/-! ### Claim theorems -/

/-- C2: for every pool, the flat negative sequence built by
`create_training_pairs` is the round-robin interleaving of the non-empty
sequences of every topic other than the positive one (spec formulation), and
on the spec's worked example with negative topics A (3 items), B (1 item),
C (2 items) it is exactly A0, B0, C0, A1, C1, A2. -/
theorem claim_C2 (a : List (Nat × List String)) (t : Nat) :
    interleaveNegatives (negativeListsOf a t) = roundRobinSpec (negativeListsOf a t) ∧
    interleaveNegatives (negativeListsOf
        [(0, ["p"]), (1, ["A0", "A1", "A2"]), (2, ["B0"]), (3, ["C0", "C1"])] 0)
      = ["A0", "B0", "C0", "A1", "C1", "A2"] :=
  ⟨interleaveNegatives_eq_roundRobin _, by decide⟩

/-- C3: `create_training_pairs` fails with the empty-positive error when the
positive sequence is empty, with the no-negatives error when no other topic
has a non-empty sequence, and in every other case returns a pair list without
raising. -/
theorem claim_C3 (p : List String) (a : List (Nat × List String)) (t : Nat)
    (n : Int) (c : List Nat) :
    (p = [] → createTrainingPairs p a t n c = Except.error PairError.emptyPositive) ∧
    (p ≠ [] → negativeListsOf a t = [] →
      createTrainingPairs p a t n c = Except.error PairError.noNegatives) ∧
    (p ≠ [] → negativeListsOf a t ≠ [] →
      ∃ l, createTrainingPairs p a t n c = Except.ok l) := by
  refine ⟨?_, ?_, ?_⟩
  · intro hp
    subst hp
    exact createTrainingPairs_emptyPositive a t n c
  · intro hp hn
    exact createTrainingPairs_noNegatives p a t n c hp hn
  · intro hp hn
    by_cases hneg : n < 0
    · exact ⟨[], createTrainingPairs_negCount p a t n c hp hn hneg⟩
    · rw [createTrainingPairs_main p a t n c hp hn hneg]
      by_cases h : n ≤ ((candidatePairs p a t).length : Int)
      · rw [if_pos h]
        exact ⟨_, rfl⟩
      · rw [if_neg h]
        exact ⟨_, rfl⟩

/-- C3 witness: the three cases at concrete pools. -/
theorem claim_C3_witness :
    createTrainingPairs [] [(1, ["a"])] 0 3 [] = Except.error PairError.emptyPositive ∧
    createTrainingPairs ["p"] [(0, ["p"])] 0 3 [] = Except.error PairError.noNegatives ∧
    ∃ l, createTrainingPairs ["p"] [(0, ["p"]), (1, ["a"])] 0 1 [0] = Except.ok l :=
  ⟨(claim_C3 [] [(1, ["a"])] 0 3 []).1 rfl,
   (claim_C3 ["p"] [(0, ["p"])] 0 3 []).2.1 (by decide) (by decide),
   (claim_C3 ["p"] [(0, ["p"]), (1, ["a"])] 0 1 [0]).2.2 (by decide) (by decide)⟩

/-- C7: with a valid pool, a negative requested count yields an empty pair
list and no error. -/
theorem claim_C7 (p : List String) (a : List (Nat × List String)) (t : Nat)
    (c : List Nat) (n : Int) (hp : p ≠ []) (hn : negativeListsOf a t ≠ [])
    (hneg : n < 0) :
    createTrainingPairs p a t n c = Except.ok [] :=
  createTrainingPairs_negCount p a t n c hp hn hneg

/-- C7 witness: the spec's example `targetCount = -5`. -/
theorem claim_C7_witness :
    createTrainingPairs ["p"] [(0, ["p"]), (1, ["a"])] 0 (-5) [] = Except.ok [] :=
  claim_C7 ["p"] [(0, ["p"]), (1, ["a"])] 0 [] (-5) (by decide) (by decide) (by decide)

/-- C8: `create_training_pairs` never mutates its caller-owned inputs: in the
state-passing embedding the final value of `(positive_samples, all_samples)`
equals the initial one on every control path. -/
theorem claim_C8 (p : List String) (a : List (Nat × List String)) (t : Nat)
    (n : Int) (c : List Nat) :
    (createTrainingPairsFull p a t n c).2 = (p, a) := by
  unfold createTrainingPairsFull
  by_cases h1 : p.isEmpty
  · rw [if_pos h1]
  · rw [if_neg h1]
    by_cases h2 : (negativeListsOf a t).isEmpty
    · rw [if_pos h2]
    · rw [if_neg h2]
      by_cases h3 : n < 0
      · rw [if_pos h3]
      · rw [if_neg h3]
        dsimp only
        split <;> rfl

/-- C9: when the positive sequence is empty and no other topic contributes,
the empty-positive check fires first. -/
theorem claim_C9 (a : List (Nat × List String)) (t : Nat) (n : Int) (c : List Nat)
    (_hn : negativeListsOf a t = []) :
    createTrainingPairs [] a t n c = Except.error PairError.emptyPositive :=
  createTrainingPairs_emptyPositive a t n c

/-- C9 witness: a pool whose only other topic is empty. -/
theorem claim_C9_witness :
    createTrainingPairs [] [(1, [])] 0 3 [] = Except.error PairError.emptyPositive :=
  claim_C9 [(1, [])] 0 3 [] (by decide)

/-- C10: a negative requested count does not bypass the emptiness checks:
with an empty positive sequence (or no contributing negative topic) the
corresponding error is still raised. -/
theorem claim_C10 (p : List String) (a : List (Nat × List String)) (t : Nat)
    (c : List Nat) (n : Int) (_hneg : n < 0) :
    (p = [] → createTrainingPairs p a t n c = Except.error PairError.emptyPositive) ∧
    (p ≠ [] → negativeListsOf a t = [] →
      createTrainingPairs p a t n c = Except.error PairError.noNegatives) := by
  constructor
  · intro hp
    subst hp
    exact createTrainingPairs_emptyPositive a t n c
  · intro hp hn
    exact createTrainingPairs_noNegatives p a t n c hp hn

/-- C10 witness: both error cases at `targetCount = -5`. -/
theorem claim_C10_witness :
    createTrainingPairs [] [(1, ["a"])] 0 (-5) [] = Except.error PairError.emptyPositive ∧
    createTrainingPairs ["p"] [(0, ["p"])] 0 (-5) [] = Except.error PairError.noNegatives :=
  ⟨(claim_C10 [] [(1, ["a"])] 0 [] (-5) (by decide)).1 rfl,
   (claim_C10 ["p"] [(0, ["p"])] 0 [] (-5) (by decide)).2 (by decide) (by decide)⟩

/-- C1 counterexample: with pool positive `["p"]`, other topic `["a", "b"]`
and `targetCount = 2 = total`, the source takes the `random.sample` branch;
the draw that picks position 1 before position 0 is a valid sample, and the
result is not the candidate enumeration order.  So "targetCount >= total
returns all pairs in enumeration order" fails at equality. -/
theorem claim_C1_counterexample :
    (["p"] : List String) ≠ [] ∧
    negativeListsOf [(0, ["p"]), (1, ["a", "b"])] 0 ≠ [] ∧
    ((candidatePairs ["p"] [(0, ["p"]), (1, ["a", "b"])] 0).length : Int) ≤ 2 ∧
    ValidSampleChoice [1, 0] (Int.toNat 2)
      (candidatePairs ["p"] [(0, ["p"]), (1, ["a", "b"])] 0).length ∧
    createTrainingPairs ["p"] [(0, ["p"]), (1, ["a", "b"])] 0 2 [1, 0]
      ≠ Except.ok (candidatePairs ["p"] [(0, ["p"]), (1, ["a", "b"])] 0) := by
  refine ⟨by decide, by decide, by decide, ⟨by decide, by decide, by decide⟩, by decide⟩

/-- C1 (amended): for a valid pool and `targetCount >= total`, the result
holds all `total` candidate pairs; it is the candidate enumeration order
exactly when `targetCount > total`, while at `targetCount = total` the source
draws a full random sample, so the result is a permutation of the candidate
enumeration in the drawn order. -/
theorem claim_C1 (p : List String) (a : List (Nat × List String)) (t : Nat)
    (n : Int) (c : List Nat)
    (hp : p ≠ []) (hn : negativeListsOf a t ≠ [])
    (hge : ((candidatePairs p a t).length : Int) ≤ n) :
    (((candidatePairs p a t).length : Int) < n →
      createTrainingPairs p a t n c = Except.ok (candidatePairs p a t)) ∧
    (n = ((candidatePairs p a t).length : Int) →
      ValidSampleChoice c n.toNat (candidatePairs p a t).length →
      ∃ l, createTrainingPairs p a t n c = Except.ok l ∧
        l.Perm (candidatePairs p a t)) := by
  have hnneg : ¬ n < 0 := by
    have := Int.natCast_nonneg (candidatePairs p a t).length
    omega
  rw [createTrainingPairs_main p a t n c hp hn hnneg]
  constructor
  · intro hlt
    rw [if_neg (by omega)]
  · rintro heq ⟨hnd, hlen, hmem⟩
    rw [if_pos (le_of_eq heq)]
    refine ⟨_, rfl, randomSample_perm _ c hnd ?_ hmem⟩
    rw [hlen, heq]
    exact Int.toNat_natCast _

/-- C1 witness: strict oversubscription returns the full enumeration. -/
theorem claim_C1_witness :
    (["p"] : List String) ≠ [] ∧
    negativeListsOf [(0, ["p"]), (1, ["a", "b"])] 0 ≠ [] ∧
    ((candidatePairs ["p"] [(0, ["p"]), (1, ["a", "b"])] 0).length : Int) ≤ 3 ∧
    createTrainingPairs ["p"] [(0, ["p"]), (1, ["a", "b"])] 0 3 []
      = Except.ok (candidatePairs ["p"] [(0, ["p"]), (1, ["a", "b"])] 0) :=
  ⟨by decide, by decide, by decide,
    (claim_C1 ["p"] [(0, ["p"]), (1, ["a", "b"])] 0 3 []
      (by decide) (by decide) (by decide)).1 (by decide)⟩

/-- C4: for a valid pool and `0 <= targetCount <= total`, the result has
length exactly `targetCount` and its elements sit at pairwise distinct
positions of the candidate enumeration. -/
theorem claim_C4 (p : List String) (a : List (Nat × List String)) (t : Nat)
    (n : Int) (c : List Nat)
    (hp : p ≠ []) (hn : negativeListsOf a t ≠ [])
    (h0 : 0 ≤ n) (hle : n ≤ ((candidatePairs p a t).length : Int))
    (hc : ValidSampleChoice c n.toNat (candidatePairs p a t).length) :
    ∃ l, createTrainingPairs p a t n c = Except.ok l ∧ (l.length : Int) = n ∧
      ∃ idxs : List Nat, idxs.Nodup ∧
        List.Forall₂ (fun i q => (candidatePairs p a t)[i]? = some q) idxs l := by
  obtain ⟨hnd, hlen, hmem⟩ := hc
  rw [createTrainingPairs_main p a t n c hp hn (by omega), if_pos hle]
  refine ⟨_, rfl, ?_, c, hnd, forall₂_filterMap_getElem _ c hmem⟩
  rw [randomSample_length _ c hmem, hlen]
  exact Int.toNat_of_nonneg h0

/-- C4 witness: a sample of size 1 out of 2 candidates. -/
theorem claim_C4_witness :
    ∃ l, createTrainingPairs ["p"] [(0, ["p"]), (1, ["a", "b"])] 0 1 [1]
        = Except.ok l ∧ (l.length : Int) = 1 ∧
      ∃ idxs : List Nat, idxs.Nodup ∧
        List.Forall₂
          (fun i q => (candidatePairs ["p"] [(0, ["p"]), (1, ["a", "b"])] 0)[i]? = some q)
          idxs l :=
  claim_C4 ["p"] [(0, ["p"]), (1, ["a", "b"])] 0 1 [1]
    (by decide) (by decide) (by decide) (by decide) ⟨by decide, by decide, by decide⟩

/-- C5: for a valid pool and `targetCount > total`, the result is exactly the
candidate enumeration: length `total`, every candidate pair exactly once. -/
theorem claim_C5 (p : List String) (a : List (Nat × List String)) (t : Nat)
    (n : Int) (c : List Nat)
    (hp : p ≠ []) (hn : negativeListsOf a t ≠ [])
    (hgt : ((candidatePairs p a t).length : Int) < n) :
    createTrainingPairs p a t n c = Except.ok (candidatePairs p a t) := by
  rw [createTrainingPairs_main p a t n c hp hn (by
    have := Int.natCast_nonneg (candidatePairs p a t).length
    omega)]
  rw [if_neg (by omega)]

/-- C5 witness: the spec's end-to-end example, `targetCount = 100 > 6`. -/
theorem claim_C5_witness :
    createTrainingPairs ["p1", "p2"]
        [(1, ["p1", "p2"]), (2, ["n1"]), (3, ["n2", "n3"])] 1 100 []
      = Except.ok (candidatePairs ["p1", "p2"]
        [(1, ["p1", "p2"]), (2, ["n1"]), (3, ["n2", "n3"])] 1) :=
  claim_C5 ["p1", "p2"] [(1, ["p1", "p2"]), (2, ["n1"]), (3, ["n2", "n3"])] 1 100 []
    (by decide) (by decide) (by decide)

/-- C6: every returned pair draws its first component from the positive
topic's sequence and its second component from some other topic's sequence
(the pool entry it is drawn from has a topic id different from the positive
one). -/
theorem claim_C6 (p : List String) (a : List (Nat × List String)) (t : Nat)
    (n : Int) (c : List Nat) (l : List (String × String))
    (hok : createTrainingPairs p a t n c = Except.ok l) :
    ∀ pr ∈ l, pr.1 ∈ p ∧ ∃ tid negs, (tid, negs) ∈ a ∧ tid ≠ t ∧ pr.2 ∈ negs := by
  intro pr hpr
  have hmemCand : pr ∈ candidatePairs p a t := by
    by_cases hp : p = []
    · subst hp
      rw [createTrainingPairs_emptyPositive] at hok
      cases hok
    by_cases hn : negativeListsOf a t = []
    · rw [createTrainingPairs_noNegatives p a t n c hp hn] at hok
      cases hok
    by_cases hneg : n < 0
    · rw [createTrainingPairs_negCount p a t n c hp hn hneg] at hok
      cases hok
      cases hpr
    · rw [createTrainingPairs_main p a t n c hp hn hneg] at hok
      by_cases h : n ≤ ((candidatePairs p a t).length : Int)
      · rw [if_pos h] at hok
        cases hok
        exact mem_randomSample _ c pr hpr
      · rw [if_neg h] at hok
        cases hok
        exact hpr
  exact mem_candidatePairs p a t pr hmemCand

/-- C6 witness: the single pair of a two-topic pool. -/
theorem claim_C6_witness :
    ("p", "a").1 ∈ (["p"] : List String) ∧
    ∃ tid negs, (tid, negs) ∈ [(0, ["p"]), (1, ["a"])] ∧ tid ≠ 0 ∧
      ("p", "a").2 ∈ negs :=
  claim_C6 ["p"] [(0, ["p"]), (1, ["a"])] 0 5 [] [("p", "a")]
    (by decide) ("p", "a") (by decide)

end TrainingPairs
